import Mathlib

/-!
Verification of the doodle-app-backend room session engine.

The definitions below are a shallow embedding of the socket handlers in
`src/server.js` (timer map, `submitAnswer`, `startGame`, `joinRoom`,
`leaveRoom`, `nextTurn`) together with the per-room timer discipline.
JavaScript numbers are modelled as exact rationals extended with the
non-finite values `NaN` and `Infinity` (`JSVal`); the float literal `0.2`
is modelled as the rational `1/5`, which agrees with IEEE evaluation of
`Math.floor(delta * 0.2)` on the integer deltas this code produces.
-/

namespace Doodle

/-- Model of a JavaScript numeric value: `undefined`, `NaN`, positive
`Infinity`, or a finite number (an exact rational). -/
inductive JSVal where
  | undef : JSVal
  | nan : JSVal
  | inf : JSVal
  | num : ℚ → JSVal
deriving DecidableEq

/-- Model of the JavaScript idiom `x || 0`: `undefined`, `NaN` and `0`
are falsy and give `0`; other numbers and `Infinity` are truthy. -/
def jsOr0 : JSVal → JSVal
  | .undef => .num 0
  | .nan => .num 0
  | .inf => .inf
  | .num q => .num q

/-- Model of JavaScript `+` on numeric values. -/
def jsAdd : JSVal → JSVal → JSVal
  | .num a, .num b => .num (a + b)
  | .num _, .inf => .inf
  | .inf, .num _ => .inf
  | .inf, .inf => .inf
  | _, _ => .nan

/-- Model of `Math.floor` on a JavaScript numeric value. -/
def jsFloor : JSVal → JSVal
  | .num q => .num ⌊q⌋
  | .inf => .inf
  | _ => .nan

/-- Model of multiplying a JavaScript numeric value by a positive rational
constant (used for the drawer bonus factor `0.2`). -/
def jsMulPos (x : JSVal) (c : ℚ) : JSVal :=
  match x with
  | .num q => .num (q * c)
  | .inf => .inf
  | _ => .nan

/-- Drawer bonus of `src/server.js` line 257: `Math.floor(delta * 0.2)`. -/
def drawerBonusOf (delta : JSVal) : JSVal :=
  jsFloor (jsMulPos delta (1 / 5))

/-- A participant entry of the `roomModel` schema (the fields the socket
handlers read or write). -/
structure Participant where
  userId : String
  username : String
  score : JSVal
  socketId : Option String
deriving DecidableEq

/-- A room document of the `roomModel` schema (the fields the socket
handlers read or write; the `leaderboard` array is never read by the
handlers modelled here and is omitted). -/
structure Room where
  participants : List Participant
  currentWord : String
  currentTurnIndex : Nat
  currentTurnUserId : Option String
  currentRound : Int
  maxRounds : Int
  roundDuration : Int
  roundStartTime : Int
  words : List String
  isStarted : Bool
  isActive : Bool
deriving DecidableEq

/-- The `Chats` document fields used by `submitAnswer`: the per-round
`correctAnswers` record (we keep only the user ids). -/
structure ChatData where
  correctAnswers : List String
deriving DecidableEq

/-- Normalisation used on guesses and the current word in `submitAnswer`
(`src/server.js` lines 225-226): `(s || "").trim().toLowerCase()`. -/
def normalizeGuess (s : String) : String :=
  s.trim.toLower

/-- Guess delta of `src/server.js` lines 232-238.  `elapsed` is
`Date.now() - room.roundStartTime`; `remaining` is clamped at `0`; the
delta is `50 + Math.floor((remaining / (roundDuration * 1000)) * 50)`.
When the total time is `0` and the clamped remaining time is `0`, the
JavaScript division `0 / 0` yields `NaN`; a positive remaining over a zero
total yields `Infinity`. -/
def guessDelta (roundDuration roundStartTime now : Int) : JSVal :=
  let total : Int := roundDuration * 1000
  let elapsed : Int := now - roundStartTime
  let remaining : Int := max (total - elapsed) 0
  if total = 0 then
    if remaining = 0 then .nan else .inf
  else
    .num (50 + ⌊((remaining : ℚ) / (total : ℚ)) * 50⌋)

/-- Score update on the first matching participant, modelling the
JavaScript pattern `p.score = (p.score || 0) + d` applied to the object
returned by `participants.find(...)`. -/
def creditFirst (uid : String) (d : JSVal) : List Participant → List Participant
  | [] => []
  | p :: ps =>
    if p.userId = uid then { p with score := jsAdd (jsOr0 p.score) d } :: ps
    else p :: creditFirst uid d ps

/-- Score of the first participant with the given user id, if any. -/
def scoreOf (uid : String) (ps : List Participant) : Option JSVal :=
  (ps.find? (fun p => p.userId = uid)).map (fun p => p.score)

/-- Result of the `submitAnswer` handler: the saved room document and the
(possibly updated) `Chats` document. -/
structure SubmitResult where
  room : Room
  chat : Option ChatData
deriving DecidableEq

/-- Drawer-bonus block of `src/server.js` lines 251-260: when
`room.currentTurnUserId` is set and a participant matches it, that
participant (the first match) is credited `d`; otherwise the list is
unchanged. -/
def drawerCredited (room : Room) (d : JSVal) : List Participant :=
  match room.currentTurnUserId with
  | some did =>
    if (room.participants.find? (fun p => p.userId = did)).isSome then
      creditFirst did d room.participants
    else room.participants
  | none => room.participants

/-- The `submitAnswer` handler of `src/server.js` lines 215-277.  The room
lookup and ObjectId parsing are the caller's concern; `now` stands for
`Date.now()`.  If the submitting user is not a participant the handler
returns without saving.  On a normalised match the delta is computed, the
guess is appended to `chat.correctAnswers` (when a chat document exists),
the current drawer (first participant matching `currentTurnUserId`, when
present) is credited `Math.floor(delta * 0.2)`, and then the guesser is
credited `delta`; the handler performs no check of the drawer, of
`isStarted`, or of `correctAnswers`.  On a non-match `delta` stays `0`
and the guesser's score is still rewritten to `(score || 0) + 0`. -/
def submitAnswer (room : Room) (chat : Option ChatData) (userId answer : String)
    (now : Int) : SubmitResult :=
  if (room.participants.find? (fun p => p.userId = userId)).isNone then
    ⟨room, chat⟩
  else if normalizeGuess answer = normalizeGuess room.currentWord then
    let delta := guessDelta room.roundDuration room.roundStartTime now
    let chat' := chat.map (fun c => { c with correctAnswers := c.correctAnswers ++ [userId] })
    let ps1 := drawerCredited room (drawerBonusOf delta)
    ⟨{ room with participants := creditFirst userId delta ps1 }, chat'⟩
  else
    ⟨{ room with participants := creditFirst userId (.num 0) room.participants }, chat⟩

/-- Result of the `nextTurn` function: the persisted room document, whether
the game-over messages were emitted, and whether a new round timer was
started. -/
structure NextTurnResult where
  room : Room
  gameOverEmitted : Bool
  timerStarted : Bool
deriving DecidableEq

/-- The `nextTurn` function of `src/server.js` lines 64-144.  `pick`
determines the random word index `Math.floor(Math.random() * len)`; it is
taken modulo the pool size, which is exactly the range of the source
expression.  If the room is not started the function returns early.  With
no participants it stops the game.  Otherwise `maxRounds` is decremented
when the old turn index is `0`, the index advances modulo the participant
count, and when `maxRounds <= 2` the game-over messages are emitted and
the function returns before `room.save()`, so the stored document is
unchanged.  Otherwise a word is drawn: with a non-empty pool a random word
is removed from it, with an empty pool the placeholder string
`"current word"` is assigned; the new drawer is the participant at the new
index, the room is saved, and `startRound` is invoked. -/
def nextTurn (pick : Nat) (room : Room) : NextTurnResult :=
  if !room.isStarted then ⟨room, false, false⟩
  else if room.participants.isEmpty then ⟨{ room with isStarted := false }, false, false⟩
  else
    let maxR := if room.currentTurnIndex = 0 then room.maxRounds - 1 else room.maxRounds
    let idx := (room.currentTurnIndex + 1) % room.participants.length
    if maxR ≤ 2 then ⟨room, true, false⟩
    else
      let hasWords := 0 < room.words.length
      let i := pick % room.words.length
      let word := if hasWords then (room.words.get? i).getD "" else "current word"
      let words' := if hasWords then room.words.eraseIdx i else room.words
      ⟨{ room with
          maxRounds := maxR, currentTurnIndex := idx, currentWord := word,
          words := words',
          currentTurnUserId := (room.participants.get? idx).map (fun p => p.userId) },
        false, true⟩

/-- Transport-handle update of the Mongo positional operator
`{"participants.$.socketId": socket.id}`: only the first participant
matching the queried user id is updated. -/
def updateSocketFirst (uid sid : String) : List Participant → List Participant
  | [] => []
  | p :: ps =>
    if p.userId = uid then { p with socketId := some sid } :: ps
    else p :: updateSocketFirst uid sid ps

/-- Index of the first participant with the given user id (the element the
positional operator addresses). -/
def firstMatchIdx (uid : String) : List Participant → Nat
  | [] => 0
  | p :: ps => if p.userId = uid then 0 else firstMatchIdx uid ps + 1

/-- The participant mutation of the `joinRoom` handler, `src/server.js`
lines 386-417: if some participant already has the user id, only that
participant's `socketId` is set; otherwise a new entry with score `0` is
appended. -/
def joinRoom (userId username sid : String) (room : Room) : Room :=
  if room.participants.any (fun p => p.userId = userId) then
    { room with participants := updateSocketFirst userId sid room.participants }
  else
    { room with participants :=
        room.participants ++ [⟨userId, username, .num 0, some sid⟩] }

/-- The participant mutation of the `leaveRoom` handler, `src/server.js`
lines 543-549: the participant list is filtered; no other field of the
room is touched. -/
def leaveRoom (userId : String) (room : Room) : Room :=
  { room with participants := room.participants.filter (fun p => p.userId ≠ userId) }

/-- The in-memory state reset of the `startGame` handler, `src/server.js`
lines 298-317: flags set, `currentRound := 1`, `currentTurnIndex := 0`,
`maxRounds` and `roundDuration` coerced to positive defaults, scores
initialised to `0` only where `undefined`, and the drawer set to the
participant at index `0`. -/
def startGameReset (room : Room) : Room :=
  { room with
      isStarted := true, isActive := true, currentRound := 1, currentTurnIndex := 0,
      maxRounds := if 0 < room.maxRounds then room.maxRounds else 3,
      roundDuration := if 0 < room.roundDuration then room.roundDuration else 30,
      participants := room.participants.map
        (fun p => if p.score = .undef then { p with score := .num 0 } else p),
      currentTurnUserId := (room.participants.get? 0).map (fun p => p.userId) }

/-- Identifiers bound in the scopes enclosing line 321 of `src/server.js`
(`const generatedWords = await generateWords(difficultyLevel, wordCategory,
wordCount)`): the module scope, the connection callback, the `startGame`
callback body up to that line, and Node globals used by the file. -/
def startGameScopeIdents : List String :=
  ["require", "module", "process", "express", "http", "cors", "Server", "dotenv",
   "dbConnection", "errorHandler", "protect", "app", "port", "io", "server",
   "Rooms", "Chats", "mongoose", "generateWords", "socket", "toId", "roundTimers",
   "clearRoomTimer", "nextTurn", "startRound", "roomId", "objectId", "room",
   "currentDrawer", "wordCount"]

/-- Free identifiers of the `generateWords` call on line 321. -/
def generateWordsCallArgs : List String :=
  ["difficultyLevel", "wordCategory", "wordCount"]

/-- Outcome of the `startGame` handler towards the requesting socket. -/
inductive StartGameOutcome where
  | silent : StartGameOutcome
  | errorEmit : String → StartGameOutcome
deriving DecidableEq

/-- Result of the `startGame` handler: the emitted outcome and the room
document the handler saves (`none` when no save statement is reached). -/
structure StartGameResult where
  outcome : StartGameOutcome
  savedRoom : Option Room
deriving DecidableEq

/-- The `startGame` handler of `src/server.js` lines 279-369.  A missing
room returns silently; fewer than two participants emits the
player-count error.  Otherwise the in-memory reset runs and execution
reaches the `generateWords(difficultyLevel, wordCategory, wordCount)`
call: evaluating its arguments looks each identifier up in the enclosing
scopes, and an identifier not in scope raises a `ReferenceError`, which
the `catch` block answers with `errorMessage "Failed to start game"`,
before any save statement runs.  Were all identifiers in scope, the
handler would go on to save the reset room (word selection elided in that
unreachable branch). -/
def startGameHandler (room : Option Room) : StartGameResult :=
  match room with
  | none => ⟨.silent, none⟩
  | some r =>
    if r.participants.length < 2 then
      ⟨.errorEmit "At least need 2 Players to start", none⟩
    else if generateWordsCallArgs.all (fun v => startGameScopeIdents.contains v) then
      ⟨.silent, some (startGameReset r)⟩
    else
      ⟨.errorEmit "Failed to start game", none⟩

/-- State of the per-connection round-timer bookkeeping of `src/server.js`
lines 54-62: `live` is the set of interval handles created by `setInterval`
and not yet cancelled by `clearInterval` (room id paired with handle id),
`timers` is the `roundTimers` object mapping a room id to the handle it
stores, and `next` is the next fresh handle id. -/
structure TimerState where
  live : List (String × Nat)
  timers : List (String × Nat)
  next : Nat
deriving DecidableEq

/-- Lookup of `roundTimers[roomId]` in the association-list model. -/
def lookupTimer (r : String) : List (String × Nat) → Option Nat
  | [] => none
  | p :: ps => if p.1 = r then some p.2 else lookupTimer r ps

/-- Removal of one interval handle from the live set (`clearInterval`). -/
def removeLive (r : String) (i : Nat) : List (String × Nat) → List (String × Nat)
  | [] => []
  | p :: ps => if p.1 = r ∧ p.2 = i then removeLive r i ps else p :: removeLive r i ps

/-- Removal of a key from the timer map (`delete roundTimers[roomId]`). -/
def removeKey (r : String) : List (String × Nat) → List (String × Nat)
  | [] => []
  | p :: ps => if p.1 = r then removeKey r ps else p :: removeKey r ps

/-- The `clearRoomTimer` utility of `src/server.js` lines 57-62: when the
map holds a handle for the room, that interval is cancelled and the map
entry deleted; otherwise nothing happens (idempotent). -/
def clearRoomTimer (r : String) (s : TimerState) : TimerState :=
  match lookupTimer r s.timers with
  | some i => ⟨removeLive r i s.live, removeKey r s.timers, s.next⟩
  | none => s

/-- Timer effect of `startRound`, `src/server.js` lines 147-213: it first
calls `clearRoomTimer(roomId)` (line 159) and then stores a fresh interval
in `roundTimers[roomId]` (line 162). -/
def startRoundTimer (r : String) (s : TimerState) : TimerState :=
  let s1 := clearRoomTimer r s
  ⟨(r, s1.next) :: s1.live, (r, s1.next) :: s1.timers, s1.next + 1⟩

/-- Timer operations the handlers perform on the `roundTimers` map: the
inline clear in `startGame` (lines 293-296) and the self-cancellation at
round end (line 174) both reduce to `clearRoomTimer`; `startRound` is the
only creation point; all other handlers leave the map alone. -/
inductive TimerOp where
  | clear : String → TimerOp
  | start : String → TimerOp
deriving DecidableEq

/-- Application of one timer operation. -/
def applyTimerOp (s : TimerState) : TimerOp → TimerState
  | .clear r => clearRoomTimer r s
  | .start r => startRoundTimer r s

/-- State after a sequence of timer operations from the initial empty map
of a fresh connection. -/
def runTimerOps (ops : List TimerOp) : TimerState :=
  ops.foldl applyTimerOp ⟨[], [], 0⟩

/-- Number of live interval handles for one room. -/
def liveCountIn (r : String) : List (String × Nat) → Nat
  | [] => 0
  | p :: ps => (if p.1 = r then 1 else 0) + liveCountIn r ps

/-- Room-level operations of the session engine, acting on the stored room
document: join, leave, the start-handler state reset, a guess submission,
and the turn advance. -/
inductive RoomOp where
  | join : String → String → String → RoomOp
  | leave : String → RoomOp
  | start : RoomOp
  | guess : String → String → Int → RoomOp
  | advance : Nat → RoomOp
deriving DecidableEq

/-- Application of one room operation to the stored room.  `start` models
the successful state reset of the start handler (guarded by the two-player
check); `guess` is `submitAnswer` (the `Chats` document does not influence
the room fields); `advance` is `nextTurn`. -/
def applyRoomOp (r : Room) : RoomOp → Room
  | .join u n s => joinRoom u n s r
  | .leave u => leaveRoom u r
  | .start => if r.participants.length < 2 then r else startGameReset r
  | .guess u a t => (submitAnswer r none u a t).room
  | .advance k => (nextTurn k r).room

/-- State after a sequence of room operations. -/
def runRoomOps (r : Room) (ops : List RoomOp) : Room :=
  ops.foldl applyRoomOp r

/-! Helper lemmas about score lookup and the first-match credit update. -/


theorem scoreOf_cons_pos {uid : String} {p : Participant} (ps : List Participant)
    (h : p.userId = uid) : scoreOf uid (p :: ps) = some p.score := by
  unfold scoreOf
  rw [List.find?_cons_of_pos _ (by simpa using h)]
  rfl

theorem scoreOf_cons_neg {uid : String} {p : Participant} (ps : List Participant)
    (h : ¬ p.userId = uid) : scoreOf uid (p :: ps) = scoreOf uid ps := by
  unfold scoreOf
  rw [List.find?_cons_of_neg _ (by simpa using h)]

theorem creditFirst_cons_pos {uid : String} {p : Participant} (ps : List Participant)
    (d : JSVal) (h : p.userId = uid) :
    creditFirst uid d (p :: ps) = { p with score := jsAdd (jsOr0 p.score) d } :: ps := by
  simp only [creditFirst, if_pos h]

theorem creditFirst_cons_neg {uid : String} {p : Participant} (ps : List Participant)
    (d : JSVal) (h : ¬ p.userId = uid) :
    creditFirst uid d (p :: ps) = p :: creditFirst uid d ps := by
  simp only [creditFirst, if_neg h]

theorem scoreOf_creditFirst_self {uid : String} {ps : List Participant} {v : JSVal}
    (h : scoreOf uid ps = some v) (d : JSVal) :
    scoreOf uid (creditFirst uid d ps) = some (jsAdd (jsOr0 v) d) := by
  induction ps with
  | nil => simp [scoreOf] at h
  | cons p ps ih =>
    by_cases hp : p.userId = uid
    · rw [creditFirst_cons_pos ps d hp,
        scoreOf_cons_pos (p := { p with score := jsAdd (jsOr0 p.score) d }) _ hp]
      rw [scoreOf_cons_pos ps hp] at h
      simp only [Option.some_inj] at h
      rw [← h]
    · rw [creditFirst_cons_neg ps d hp, scoreOf_cons_neg _ hp]
      rw [scoreOf_cons_neg ps hp] at h
      exact ih h

theorem scoreOf_creditFirst_other {uid vid : String} {ps : List Participant}
    (h : uid ≠ vid) (d : JSVal) :
    scoreOf vid (creditFirst uid d ps) = scoreOf vid ps := by
  induction ps with
  | nil => rfl
  | cons p ps ih =>
    by_cases hp : p.userId = uid
    · have hv : ¬ p.userId = vid := by rw [hp]; exact h
      rw [creditFirst_cons_pos ps d hp,
        scoreOf_cons_neg (p := { p with score := jsAdd (jsOr0 p.score) d }) _ hv,
        scoreOf_cons_neg ps hv]
    · rw [creditFirst_cons_neg ps d hp]
      by_cases hv : p.userId = vid
      · rw [scoreOf_cons_pos _ hv, scoreOf_cons_pos ps hv]
      · rw [scoreOf_cons_neg _ hv, scoreOf_cons_neg ps hv]
        exact ih

theorem find?_eq_of_scoreOf {uid : String} {ps : List Participant} {v : JSVal}
    (h : scoreOf uid ps = some v) :
    ∃ p, ps.find? (fun p => p.userId = uid) = some p ∧ p.score = v := by
  unfold scoreOf at h
  cases hf : ps.find? (fun p => p.userId = uid) with
  | none => rw [hf] at h; simp at h
  | some p => rw [hf] at h; simp at h; exact ⟨p, rfl, h⟩

/-- Total round time in milliseconds, `room.roundDuration * 1000`. -/
def totalMs (room : Room) : Int := room.roundDuration * 1000

/-- Clamped remaining time in milliseconds at instant `now`. -/
def remainingMs (room : Room) (now : Int) : Int :=
  max (totalMs room - (now - room.roundStartTime)) 0

/-- The guess points value `50 + floor((remaining / total) * 50)` as an
exact rational, meaningful for a nonzero total. -/
def guessPointsQ (room : Room) (now : Int) : ℚ :=
  50 + ⌊((remainingMs room now : ℚ) / ((totalMs room : ℤ) : ℚ)) * 50⌋

theorem guessDelta_ne_zero (room : Room) (now : Int) (h : totalMs room ≠ 0) :
    guessDelta room.roundDuration room.roundStartTime now = .num (guessPointsQ room now) := by
  unfold totalMs at h
  unfold guessDelta guessPointsQ remainingMs totalMs
  rw [if_neg h]

theorem submitAnswer_correct_eq (room : Room) (chat : Option ChatData)
    (uid ans : String) (now : Int) (pg : Participant)
    (hans : normalizeGuess ans = normalizeGuess room.currentWord)
    (hpg : room.participants.find? (fun p => p.userId = uid) = some pg) :
    submitAnswer room chat uid ans now =
      SubmitResult.mk
        { room with participants :=
            (creditFirst uid (guessDelta room.roundDuration room.roundStartTime now)
              (drawerCredited room
                (drawerBonusOf (guessDelta room.roundDuration room.roundStartTime now)))) }
        (chat.map (fun c => { c with correctAnswers := c.correctAnswers ++ [uid] })) := by
  unfold submitAnswer
  rw [hpg]
  simp [hans]

theorem scoreOf_drawerCredited_other {room : Room} {uid : String}
    (h : room.currentTurnUserId ≠ some uid) (d : JSVal) :
    scoreOf uid (drawerCredited room d) = scoreOf uid room.participants := by
  unfold drawerCredited
  cases hdid : room.currentTurnUserId with
  | none => rfl
  | some did =>
    have hne : did ≠ uid := by
      intro he
      exact h (by rw [hdid, he])
    show scoreOf uid
        (if (room.participants.find? (fun p => p.userId = did)).isSome = true then
          creditFirst did d room.participants
        else room.participants) = scoreOf uid room.participants
    by_cases hf : (room.participants.find? (fun p => p.userId = did)).isSome = true
    · rw [if_pos hf]
      exact scoreOf_creditFirst_other hne d
    · rw [if_neg hf]

theorem scoreOf_drawerCredited_self {room : Room} {did : String} {v : JSVal}
    (hdid : room.currentTurnUserId = some did)
    (hd : scoreOf did room.participants = some v) (d : JSVal) :
    scoreOf did (drawerCredited room d) = some (jsAdd (jsOr0 v) d) := by
  unfold drawerCredited
  rw [hdid]
  obtain ⟨pd, hpd, _⟩ := find?_eq_of_scoreOf hd
  show scoreOf did
      (if (room.participants.find? (fun p => p.userId = did)).isSome = true then
        creditFirst did d room.participants
      else room.participants) = some (jsAdd (jsOr0 v) d)
  rw [hpd]
  simp only [Option.isSome_some, if_true]
  exact scoreOf_creditFirst_self hd d

theorem turnUserId_ne_of_some {room : Room} {did uid : String}
    (hdid : room.currentTurnUserId = some did) (hne : did ≠ uid) :
    room.currentTurnUserId ≠ some uid := by
  rw [hdid]
  intro he
  exact hne (Option.some_inj.mp he)

/-! Claim C2: scoring of a correct guess. -/

/-- C2 (amended): for a correct normalised guess by participant `uid` with
finite score, drawer `did ≠ uid` with finite score: when the total round
time is positive the guesser gains exactly `50 + floor((remaining/total)*50)`
and the drawer gains exactly `floor(guessPoints * 0.2)`; when the total is
negative (and the clock has not run backwards) the guesser gains exactly
the base `50`; when the total is zero the division `0/0` makes the
guesser's stored score `NaN`, not a `50`-point credit. -/
theorem c2_guess_scoring (room : Room) (chat : Option ChatData) (uid ans : String)
    (now : Int) (did : String) (qg qd : ℚ)
    (hans : normalizeGuess ans = normalizeGuess room.currentWord)
    (hg : scoreOf uid room.participants = some (.num qg))
    (hdid : room.currentTurnUserId = some did)
    (hne : did ≠ uid)
    (hd : scoreOf did room.participants = some (.num qd)) :
    (0 < totalMs room →
      scoreOf uid (submitAnswer room chat uid ans now).room.participants
        = some (.num (qg + guessPointsQ room now)) ∧
      scoreOf did (submitAnswer room chat uid ans now).room.participants
        = some (.num (qd + (⌊guessPointsQ room now * (1 / 5)⌋ : ℤ)))) ∧
    (totalMs room < 0 → room.roundStartTime ≤ now →
      scoreOf uid (submitAnswer room chat uid ans now).room.participants
        = some (.num (qg + 50))) ∧
    (totalMs room = 0 → room.roundStartTime ≤ now →
      scoreOf uid (submitAnswer room chat uid ans now).room.participants
        = some JSVal.nan) := by
  obtain ⟨pg, hpg, hpgs⟩ := find?_eq_of_scoreOf hg
  have hps := submitAnswer_correct_eq room chat uid ans now pg hans hpg
  set dlt := guessDelta room.roundDuration room.roundStartTime now with hdlt
  have hug : scoreOf uid (submitAnswer room chat uid ans now).room.participants
      = some (jsAdd (.num qg) dlt) := by
    rw [hps]
    have h1 : scoreOf uid (drawerCredited room (drawerBonusOf dlt)) = some (.num qg) := by
      rw [scoreOf_drawerCredited_other (turnUserId_ne_of_some hdid hne)]
      exact hg
    rw [scoreOf_creditFirst_self h1 dlt]
    rfl
  have hud : scoreOf did (submitAnswer room chat uid ans now).room.participants
      = some (jsAdd (.num qd) (drawerBonusOf dlt)) := by
    rw [hps]
    show scoreOf did (creditFirst uid dlt (drawerCredited room (drawerBonusOf dlt))) = _
    rw [scoreOf_creditFirst_other (Ne.symm hne)]
    rw [scoreOf_drawerCredited_self hdid hd]
    rfl
  refine ⟨fun hpos => ?_, fun hneg hnow => ?_, fun hzero hnow => ?_⟩
  · have hnz : totalMs room ≠ 0 := by omega
    rw [guessDelta_ne_zero room now hnz] at hdlt
    constructor
    · rw [hug, hdlt]
      rfl
    · rw [hud, hdlt]
      show some (jsAdd (.num qd) (jsFloor (jsMulPos (.num (guessPointsQ room now)) (1 / 5)))) = _
      rfl
  · have hnz : totalMs room ≠ 0 := by omega
    rw [guessDelta_ne_zero room now hnz] at hdlt
    have hrem : remainingMs room now = 0 := by
      unfold remainingMs
      have : totalMs room - (now - room.roundStartTime) ≤ 0 := by omega
      omega
    have hgp : guessPointsQ room now = 50 := by
      unfold guessPointsQ
      rw [hrem]
      norm_num
    rw [hug, hdlt, hgp]
    rfl
  · have hrem : remainingMs room now = 0 := by
      unfold remainingMs
      have : totalMs room - (now - room.roundStartTime) ≤ 0 := by omega
      omega
    have hdn : dlt = JSVal.nan := by
      rw [hdlt]
      unfold guessDelta
      unfold totalMs at hzero
      unfold remainingMs totalMs at hrem
      rw [if_pos hzero, if_pos hrem]
    rw [hug, hdn]
    rfl

/-- Room fixture: a 30-second round started at time `0`, word `"cat"`,
drawer `bob`, guesser `alice`, both with score `0`. -/
def roomThirty : Room :=
  { participants := [⟨"alice", "alice", .num 0, some "s1"⟩, ⟨"bob", "bob", .num 0, some "s2"⟩],
    currentWord := "cat", currentTurnIndex := 1, currentTurnUserId := some "bob",
    currentRound := 1, maxRounds := 3, roundDuration := 30, roundStartTime := 0,
    words := ["w"], isStarted := true, isActive := true }

/-- C2 witness: at 20 of 30 seconds remaining the guesser is credited 83
points and the drawer 16, by `c2_guess_scoring` on `roomThirty`. -/
theorem c2_guess_scoring_witness :
    scoreOf "alice" (submitAnswer roomThirty (some ⟨[]⟩) "alice" "cat" 10000).room.participants
      = some (.num 83) ∧
    scoreOf "bob" (submitAnswer roomThirty (some ⟨[]⟩) "alice" "cat" 10000).room.participants
      = some (.num 16) := by
  have h := (c2_guess_scoring roomThirty (some ⟨[]⟩) "alice" "cat" 10000 "bob" 0 0
    rfl rfl rfl (by decide) rfl).1 (by norm_num [totalMs, roomThirty])
  have hgp : guessPointsQ roomThirty 10000 = 83 := by
    norm_num [guessPointsQ, remainingMs, totalMs, roomThirty]
  constructor
  · rw [h.1, hgp]
    norm_num
  · rw [h.2, hgp]
    norm_num

/-- Room fixture: identical to `roomThirty` but with `roundDuration := 0`. -/
def roomZeroDuration : Room :=
  { roomThirty with roundDuration := 0 }

/-- C2 counterexample: with a non-positive total round time (`t = 0`) the
guesser is not "credited only the base 50": the stored score becomes
`NaN`. -/
theorem c2_zero_total_nan_counterexample :
    scoreOf "alice" (submitAnswer roomZeroDuration (some ⟨[]⟩) "alice" "cat" 5).room.participants
      = some JSVal.nan ∧ JSVal.nan ≠ JSVal.num 50 := by
  constructor
  · norm_num [submitAnswer, roomZeroDuration, roomThirty, guessDelta, normalizeGuess,
      creditFirst, scoreOf, jsAdd, jsOr0, jsFloor, jsMulPos, drawerBonusOf, drawerCredited,
      List.find?, show decide ("alice" = "bob") = false from by decide,
      show decide ("bob" = "alice") = false from by decide]
  · decide

/-! Claim C3: (non-)idempotence of guess crediting within a round. -/

/-- C3 (amended): a correct submission credits the guesser again even when
that user is already recorded in `correctAnswers` for the round: the score
strictly increases by the full delta and the user id is appended to the
record once more (the handler never consults `correctAnswers`). -/
theorem c3_resubmission_credits_again (room : Room) (c : ChatData) (uid ans : String)
    (now : Int) (qg : ℚ)
    (_hrec : uid ∈ c.correctAnswers)
    (hans : normalizeGuess ans = normalizeGuess room.currentWord)
    (hg : scoreOf uid room.participants = some (.num qg))
    (hdr : room.currentTurnUserId ≠ some uid)
    (hpos : 0 < totalMs room) :
    scoreOf uid (submitAnswer room (some c) uid ans now).room.participants
      = some (.num (qg + guessPointsQ room now)) ∧
    qg < qg + guessPointsQ room now ∧
    (submitAnswer room (some c) uid ans now).chat
      = some { c with correctAnswers := c.correctAnswers ++ [uid] } := by
  obtain ⟨pg, hpg, hpgs⟩ := find?_eq_of_scoreOf hg
  have hps := submitAnswer_correct_eq room (some c) uid ans now pg hans hpg
  have hnz : totalMs room ≠ 0 := by omega
  refine ⟨?_, ?_, ?_⟩
  · rw [hps]
    have h1 : scoreOf uid
        (drawerCredited room
          (drawerBonusOf (guessDelta room.roundDuration room.roundStartTime now)))
        = some (.num qg) := by
      rw [scoreOf_drawerCredited_other hdr]
      exact hg
    rw [scoreOf_creditFirst_self h1, guessDelta_ne_zero room now hnz]
    rfl
  · have hfl : (0 : ℤ) ≤ ⌊((remainingMs room now : ℚ) / ((totalMs room : ℤ) : ℚ)) * 50⌋ := by
      apply Int.floor_nonneg.mpr
      apply mul_nonneg
      · apply div_nonneg
        · exact_mod_cast le_max_right _ 0
        · exact_mod_cast le_of_lt hpos
      · norm_num
    unfold guessPointsQ
    have : (0 : ℚ) ≤ (⌊((remainingMs room now : ℚ) / ((totalMs room : ℤ) : ℚ)) * 50⌋ : ℤ) := by
      exact_mod_cast hfl
    linarith
  · rw [hps]
    rfl

/-- C3 counterexample: a second identical correct submission by `alice` in
the same round changes her score again (83 to 166), even though she is
already recorded in `correctAnswers`; so `submitGuess` is not idempotent
per user per round. -/
theorem c3_double_credit_counterexample :
    (submitAnswer roomThirty (some ⟨[]⟩) "alice" "cat" 10000).chat = some ⟨["alice"]⟩ ∧
    scoreOf "alice"
      (submitAnswer roomThirty (some ⟨[]⟩) "alice" "cat" 10000).room.participants
      = some (.num 83) ∧
    scoreOf "alice"
      (submitAnswer (submitAnswer roomThirty (some ⟨[]⟩) "alice" "cat" 10000).room
        (submitAnswer roomThirty (some ⟨[]⟩) "alice" "cat" 10000).chat
        "alice" "cat" 10000).room.participants
      = some (.num 166) ∧
    JSVal.num 166 ≠ JSVal.num 83 := by
  refine ⟨?_, ?_, ?_, ?_⟩ <;>
    norm_num [submitAnswer, roomThirty, guessDelta, normalizeGuess, creditFirst, scoreOf,
      jsAdd, jsOr0, jsFloor, jsMulPos, drawerBonusOf, drawerCredited, List.find?,
      show decide ("alice" = "bob") = false from by decide,
      show decide ("bob" = "alice") = false from by decide]

/-! Claim C4: guesses by the drawer or outside an active round. -/

/-- C4 (amended): the `submitAnswer` handler checks neither the drawer nor
round activity: when the submitting user is the current drawer and the
guess matches, that participant is credited both the drawer bonus and the
guess delta; and the handler never reads `isStarted`, which is passed
through unchanged. -/
theorem c4_drawer_guess_processed (room : Room) (chat : Option ChatData)
    (uid ans : String) (now : Int) (qd : ℚ)
    (hdid : room.currentTurnUserId = some uid)
    (hg : scoreOf uid room.participants = some (.num qd))
    (hans : normalizeGuess ans = normalizeGuess room.currentWord)
    (hpos : 0 < totalMs room) :
    scoreOf uid (submitAnswer room chat uid ans now).room.participants
      = some (.num (qd + (⌊guessPointsQ room now * (1 / 5)⌋ : ℤ) + guessPointsQ room now)) ∧
    (submitAnswer room chat uid ans now).room.isStarted = room.isStarted := by
  obtain ⟨pg, hpg, hpgs⟩ := find?_eq_of_scoreOf hg
  have hps := submitAnswer_correct_eq room chat uid ans now pg hans hpg
  have hnz : totalMs room ≠ 0 := by omega
  constructor
  · rw [hps]
    have h1 : scoreOf uid
        (drawerCredited room
          (drawerBonusOf (guessDelta room.roundDuration room.roundStartTime now)))
        = some (.num (qd + (⌊guessPointsQ room now * (1 / 5)⌋ : ℤ))) := by
      rw [scoreOf_drawerCredited_self hdid hg, guessDelta_ne_zero room now hnz]
      rfl
    rw [scoreOf_creditFirst_self h1, guessDelta_ne_zero room now hnz]
    rfl
  · rw [hps]

/-- Room fixture: `roomThirty` with the game flag off (no active round). -/
def roomInactive : Room :=
  { roomThirty with isStarted := false }

/-- C4 counterexample: in a room that is not in an active round, a correct
guess submitted by the current drawer (`bob`) is not a no-op: `bob` is
credited the drawer bonus plus the guess delta (score 0 to 99). -/
theorem c4_drawer_scores_counterexample :
    roomInactive.isStarted = false ∧
    roomInactive.currentTurnUserId = some "bob" ∧
    scoreOf "bob" (submitAnswer roomInactive (some ⟨[]⟩) "bob" "cat" 10000).room.participants
      = some (.num 99) ∧
    JSVal.num 99 ≠ JSVal.num 0 := by
  refine ⟨rfl, rfl, ?_, ?_⟩ <;>
    norm_num [submitAnswer, roomInactive, roomThirty, guessDelta, normalizeGuess,
      creditFirst, scoreOf, jsAdd, jsOr0, jsFloor, jsMulPos, drawerBonusOf, drawerCredited,
      List.find?, show decide ("alice" = "bob") = false from by decide,
      show decide ("bob" = "alice") = false from by decide]

/-! Claim C5: no early round termination on guesses. -/

/-- C5 (amended): `submitAnswer` never performs a round transition: every
field of the room other than the participants' scores — in particular
`currentTurnIndex`, `currentWord`, `isStarted`, `roundStartTime`, `words` —
is returned unchanged, for every input; so a completing correct guess does
not end the round, which ends only through the timer expiry path. -/
theorem c5_guess_never_ends_round (room : Room) (chat : Option ChatData)
    (uid ans : String) (now : Int) :
    (submitAnswer room chat uid ans now).room.currentTurnIndex = room.currentTurnIndex ∧
    (submitAnswer room chat uid ans now).room.currentWord = room.currentWord ∧
    (submitAnswer room chat uid ans now).room.isStarted = room.isStarted ∧
    (submitAnswer room chat uid ans now).room.roundStartTime = room.roundStartTime ∧
    (submitAnswer room chat uid ans now).room.words = room.words ∧
    (submitAnswer room chat uid ans now).room.currentTurnUserId = room.currentTurnUserId ∧
    (submitAnswer room chat uid ans now).room.maxRounds = room.maxRounds := by
  unfold submitAnswer
  split_ifs <;> exact ⟨rfl, rfl, rfl, rfl, rfl, rfl, rfl⟩

/-- Room fixture: three participants with drawer `carol`. -/
def roomTrio : Room :=
  { participants := [⟨"alice", "alice", .num 0, some "s1"⟩, ⟨"bob", "bob", .num 0, some "s2"⟩,
      ⟨"carol", "carol", .num 0, some "s3"⟩],
    currentWord := "cat", currentTurnIndex := 2, currentTurnUserId := some "carol",
    currentRound := 1, maxRounds := 5, roundDuration := 30, roundStartTime := 0,
    words := ["w"], isStarted := true, isActive := true }

/-- C5 counterexample: after `bob`'s correct guess completes the set of
non-drawer participants who guessed correctly (`alice` then `bob`, with
drawer `carol`), the round state is untouched: same turn index, same word,
still started, same timer baseline — the round does not end early. -/
theorem c5_all_guessed_no_end_counterexample :
    (submitAnswer (submitAnswer roomTrio (some ⟨[]⟩) "alice" "cat" 10000).room
      (submitAnswer roomTrio (some ⟨[]⟩) "alice" "cat" 10000).chat
      "bob" "cat" 12000).chat = some ⟨["alice", "bob"]⟩ ∧
    (submitAnswer (submitAnswer roomTrio (some ⟨[]⟩) "alice" "cat" 10000).room
      (submitAnswer roomTrio (some ⟨[]⟩) "alice" "cat" 10000).chat
      "bob" "cat" 12000).room.currentTurnIndex = roomTrio.currentTurnIndex ∧
    (submitAnswer (submitAnswer roomTrio (some ⟨[]⟩) "alice" "cat" 10000).room
      (submitAnswer roomTrio (some ⟨[]⟩) "alice" "cat" 10000).chat
      "bob" "cat" 12000).room.currentWord = roomTrio.currentWord ∧
    (submitAnswer (submitAnswer roomTrio (some ⟨[]⟩) "alice" "cat" 10000).room
      (submitAnswer roomTrio (some ⟨[]⟩) "alice" "cat" 10000).chat
      "bob" "cat" 12000).room.isStarted = true ∧
    (submitAnswer (submitAnswer roomTrio (some ⟨[]⟩) "alice" "cat" 10000).room
      (submitAnswer roomTrio (some ⟨[]⟩) "alice" "cat" 10000).chat
      "bob" "cat" 12000).room.roundStartTime = roomTrio.roundStartTime := by
  refine ⟨?_, ?_, ?_, ?_, ?_⟩ <;>
    norm_num [submitAnswer, roomTrio, guessDelta, normalizeGuess, creditFirst, scoreOf,
      jsAdd, jsOr0, jsFloor, jsMulPos, drawerBonusOf, drawerCredited, List.find?,
      show decide ("alice" = "bob") = false from by decide,
      show decide ("bob" = "alice") = false from by decide,
      show decide ("alice" = "carol") = false from by decide,
      show decide ("carol" = "alice") = false from by decide,
      show decide ("bob" = "carol") = false from by decide,
      show decide ("carol" = "bob") = false from by decide]

/-- C3 witness: `c3_resubmission_credits_again` applied to `roomThirty`
with `alice` already recorded in `correctAnswers`. -/
theorem c3_resubmission_credits_again_witness :
    scoreOf "alice"
      (submitAnswer roomThirty (some ⟨["alice"]⟩) "alice" "cat" 10000).room.participants
      = some (.num (0 + guessPointsQ roomThirty 10000)) ∧
    (0 : ℚ) < 0 + guessPointsQ roomThirty 10000 ∧
    (submitAnswer roomThirty (some ⟨["alice"]⟩) "alice" "cat" 10000).chat
      = some ⟨["alice"] ++ ["alice"]⟩ :=
  c3_resubmission_credits_again roomThirty ⟨["alice"]⟩ "alice" "cat" 10000 0
    (by decide) rfl rfl (by decide) (by decide)

/-- C4 witness: `c4_drawer_guess_processed` applied to `roomInactive` with
the drawer `bob` submitting the correct word. -/
theorem c4_drawer_guess_processed_witness :
    scoreOf "bob" (submitAnswer roomInactive (some ⟨[]⟩) "bob" "cat" 10000).room.participants
      = some (.num (0 + (⌊guessPointsQ roomInactive 10000 * (1 / 5)⌋ : ℤ)
          + guessPointsQ roomInactive 10000)) ∧
    (submitAnswer roomInactive (some ⟨[]⟩) "bob" "cat" 10000).room.isStarted
      = roomInactive.isStarted :=
  c4_drawer_guess_processed roomInactive (some ⟨[]⟩) "bob" "cat" 10000 0
    rfl rfl rfl (by decide)

/-! Claim C6: behaviour on an exhausted word pool. -/

/-- C6 (amended): at a turn transition with an empty word pool (and the
game not at its game-over threshold), `nextTurn` assigns the placeholder
string `"current word"` as the room's `currentWord` and continues the game
(a new round timer is started, no game-over is emitted, the room stays
started); it does not transition to game over. -/
theorem c6_empty_pool_placeholder (pick : Nat) (room : Room)
    (h1 : room.isStarted = true) (h2 : room.participants ≠ [])
    (h3 : ¬ (if room.currentTurnIndex = 0 then room.maxRounds - 1 else room.maxRounds) ≤ 2)
    (h4 : room.words = []) :
    (nextTurn pick room).room.currentWord = "current word" ∧
    (nextTurn pick room).gameOverEmitted = false ∧
    (nextTurn pick room).timerStarted = true ∧
    (nextTurn pick room).room.isStarted = true := by
  have h2e : room.participants.isEmpty = false := by
    cases hps : room.participants with
    | nil => exact absurd hps h2
    | cons p ps => rfl
  unfold nextTurn
  rw [h1]
  simp only [Bool.not_true, Bool.false_eq_true, if_false, h2e, if_neg h3, h4]
  simp [h1]

/-- Room fixture: a started two-player room whose word pool is empty, away
from the game-over threshold. -/
def roomNoWords : Room :=
  { participants := [⟨"alice", "alice", .num 0, some "s1"⟩, ⟨"bob", "bob", .num 0, some "s2"⟩],
    currentWord := "w0", currentTurnIndex := 1, currentTurnUserId := some "bob",
    currentRound := 1, maxRounds := 5, roundDuration := 30, roundStartTime := 0,
    words := [], isStarted := true, isActive := true }

/-- C6 witness: `c6_empty_pool_placeholder` applied to `roomNoWords`. -/
theorem c6_empty_pool_placeholder_witness :
    (nextTurn 0 roomNoWords).room.currentWord = "current word" ∧
    (nextTurn 0 roomNoWords).gameOverEmitted = false ∧
    (nextTurn 0 roomNoWords).timerStarted = true ∧
    (nextTurn 0 roomNoWords).room.isStarted = true :=
  c6_empty_pool_placeholder 0 roomNoWords rfl (by decide) (by decide) rfl

/-- C6 counterexample: on a turn transition with an empty word pool the
game does not become game-over; the placeholder string `"current word"` is
assigned as `currentWord`, falsifying "a placeholder or empty string is
never assigned". -/
theorem c6_placeholder_assigned_counterexample :
    (nextTurn 0 roomNoWords).room.currentWord = "current word" ∧
    (nextTurn 0 roomNoWords).gameOverEmitted = false ∧
    (nextTurn 0 roomNoWords).room.isStarted = true ∧
    (nextTurn 0 roomNoWords).timerStarted = true := by
  refine ⟨?_, ?_, ?_, ?_⟩ <;> decide

/-! Claim C7: score handling at game start. -/

theorem scoreOf_map_scoreInit (uid : String) (ps : List Participant) :
    scoreOf uid (ps.map (fun p => if p.score = .undef then { p with score := JSVal.num 0 } else p))
      = (scoreOf uid ps).map (fun v => if v = .undef then JSVal.num 0 else v) := by
  induction ps with
  | nil => rfl
  | cons p ps ih =>
    by_cases hu : p.userId = uid
    · by_cases hs : p.score = .undef
      · rw [List.map_cons, if_pos hs,
          scoreOf_cons_pos (p := { p with score := JSVal.num 0 }) _ hu,
          scoreOf_cons_pos ps hu]
        simp [hs]
      · rw [List.map_cons, if_neg hs, scoreOf_cons_pos _ hu, scoreOf_cons_pos ps hu]
        simp [hs]
    · by_cases hs : p.score = .undef
      · rw [List.map_cons, if_pos hs,
          scoreOf_cons_neg (p := { p with score := JSVal.num 0 }) _ hu,
          scoreOf_cons_neg ps hu]
        exact ih
      · rw [List.map_cons, if_neg hs, scoreOf_cons_neg _ hu, scoreOf_cons_neg ps hu]
        exact ih

/-- C7 (amended): the start-handler state reset sets `currentRound := 1`,
`currentTurnIndex := 0` and marks the game started, but initialises a
participant's score to `0` only when it is `undefined`: every already
defined score — including a nonzero score carried over from a previous
game — is left unchanged. -/
theorem c7_start_resets_only_undefined (room : Room) :
    (startGameReset room).currentRound = 1 ∧
    (startGameReset room).currentTurnIndex = 0 ∧
    (startGameReset room).isStarted = true ∧
    ∀ uid, scoreOf uid (startGameReset room).participants
      = (scoreOf uid room.participants).map (fun v => if v = .undef then JSVal.num 0 else v) :=
  ⟨rfl, rfl, rfl, fun uid => scoreOf_map_scoreInit uid room.participants⟩

/-- Room fixture: two participants carrying scores 75 and 40 over from a
previous game, back in the lobby. -/
def roomCarryOver : Room :=
  { participants := [⟨"alice", "alice", .num 75, some "s1"⟩, ⟨"bob", "bob", .num 40, some "s2"⟩],
    currentWord := "", currentTurnIndex := 0, currentTurnUserId := none,
    currentRound := 0, maxRounds := 3, roundDuration := 30, roundStartTime := 0,
    words := [], isStarted := false, isActive := true }

/-- C7 counterexample: starting a game in a two-player room does not reset
`alice`'s carried-over score of 75 to 0: the score-initialisation loop only
touches `undefined` scores. -/
theorem c7_score_not_reset_counterexample :
    2 ≤ roomCarryOver.participants.length ∧
    scoreOf "alice" (startGameReset roomCarryOver).participants = some (.num 75) ∧
    JSVal.num 75 ≠ JSVal.num 0 := by
  refine ⟨by decide, rfl, ?_⟩
  simp only [ne_eq, JSVal.num.injEq]
  norm_num

/-! Claim C8: the turn-index bound. -/

/-- C8 (amended): the turn advance itself preserves the bound
`currentTurnIndex < participants.length` (the advance is taken modulo the
participant count, and the game-over and guard branches leave index and
list unchanged) — but `leaveRoom` removes participants without clamping
`currentTurnIndex`, so the bound can be broken by a leave; see the
counterexample. -/
theorem c8_advance_preserves_index_bound (pick : Nat) (room : Room)
    (h : room.currentTurnIndex < room.participants.length) :
    (nextTurn pick room).room.currentTurnIndex
      < (nextTurn pick room).room.participants.length := by
  unfold nextTurn
  by_cases h1 : (!room.isStarted) = true
  · rw [if_pos h1]
    exact h
  · rw [if_neg h1]
    by_cases h2 : room.participants.isEmpty = true
    · rw [if_pos h2]
      exact h
    · rw [if_neg h2]
      simp only []
      by_cases h3 :
          (if room.currentTurnIndex = 0 then room.maxRounds - 1 else room.maxRounds) ≤ 2
      · rw [if_pos h3]
        exact h
      · rw [if_neg h3]
        show (room.currentTurnIndex + 1) % room.participants.length
          < room.participants.length
        exact Nat.mod_lt _ (by omega)

/-- C8 witness: `c8_advance_preserves_index_bound` on `roomTrio`. -/
theorem c8_advance_preserves_index_bound_witness :
    (nextTurn 0 roomTrio).room.currentTurnIndex
      < (nextTurn 0 roomTrio).room.participants.length :=
  c8_advance_preserves_index_bound 0 roomTrio (by decide)

/-- Room fixture: a freshly created three-word room in the lobby with
`maxRounds` configured to 10. -/
def lobbyRoom : Room :=
  { participants := [], currentWord := "", currentTurnIndex := 0, currentTurnUserId := none,
    currentRound := 0, maxRounds := 10, roundDuration := 30, roundStartTime := 0,
    words := ["w1", "w2", "w3"], isStarted := true, isActive := true }

/-- Operation sequence: three joins, game start, two turn advances, then
the participant at the current turn index leaves. -/
def c8ops : List RoomOp :=
  [.join "a" "a" "sa", .join "b" "b" "sb", .join "c" "c" "sc", .start,
   .advance 0, .advance 0, .leave "c"]

/-- C8 counterexample: after joins, a start, two turn advances and a
leave, the room is still started with a non-empty participant list, yet
`currentTurnIndex = 2` is not below `participants.length = 2`: `leaveRoom`
does not maintain the invariant. -/
theorem c8_leave_breaks_index_counterexample :
    (runRoomOps lobbyRoom c8ops).isStarted = true ∧
    (runRoomOps lobbyRoom c8ops).participants.length = 2 ∧
    (runRoomOps lobbyRoom c8ops).currentTurnIndex = 2 ∧
    ¬ ((runRoomOps lobbyRoom c8ops).currentTurnIndex
        < (runRoomOps lobbyRoom c8ops).participants.length) := by
  refine ⟨?_, ?_, ?_, ?_⟩ <;> decide

/-! Claim C9: rejoining with a known user id. -/

/-- Participant identity and score, with the transport handle stripped. -/
def stripSocket (p : Participant) : String × String × JSVal :=
  (p.userId, p.username, p.score)

theorem updateSocketFirst_strip (u sid : String) (ps : List Participant) :
    (updateSocketFirst u sid ps).map stripSocket = ps.map stripSocket := by
  induction ps with
  | nil => rfl
  | cons p ps ih =>
    by_cases hp : p.userId = u
    · simp only [updateSocketFirst, if_pos hp, List.map_cons]
      rfl
    · simp only [updateSocketFirst, if_neg hp, List.map_cons, ih]

theorem updateSocketFirst_get? (u sid : String) (ps : List Participant)
    (h : ps.any (fun p => p.userId = u) = true) (i : Nat) :
    ((updateSocketFirst u sid ps).get? i).map (fun p => p.socketId)
      = if i = firstMatchIdx u ps then some (some sid)
        else (ps.get? i).map (fun p => p.socketId) := by
  induction ps generalizing i with
  | nil => simp at h
  | cons p ps ih =>
    by_cases hp : p.userId = u
    · simp only [updateSocketFirst, if_pos hp, firstMatchIdx]
      cases i with
      | zero => rfl
      | succ j => simp
    · have h' : ps.any (fun p => p.userId = u) = true := by
        simp only [List.any_cons, Bool.or_eq_true, decide_eq_true_eq] at h
        rcases h with h | h
        · exact absurd h hp
        · exact h
      simp only [updateSocketFirst, if_neg hp, firstMatchIdx]
      cases i with
      | zero => simp
      | succ j =>
        simp only [List.get?_cons_succ]
        rw [ih h' j]
        by_cases hj : j = firstMatchIdx u ps
        · rw [if_pos hj, if_pos (by omega)]
        · rw [if_neg hj, if_neg (by omega)]

/-- C9: when a join arrives for a user id already present in the
participant list, only that (first matching) participant's transport
handle is rewritten: no entry is added or removed, every participant's
id, name, score and position are unchanged, and every other participant's
socket id is unchanged. -/
theorem c9_rejoin_updates_only_socket (room : Room) (u n sid : String)
    (h : room.participants.any (fun p => p.userId = u) = true) :
    joinRoom u n sid room
      = { room with participants := updateSocketFirst u sid room.participants } ∧
    (joinRoom u n sid room).participants.map stripSocket
      = room.participants.map stripSocket ∧
    ∀ i, (((joinRoom u n sid room).participants).get? i).map (fun p => p.socketId)
      = if i = firstMatchIdx u room.participants then some (some sid)
        else (room.participants.get? i).map (fun p => p.socketId) := by
  have hj : joinRoom u n sid room
      = { room with participants := updateSocketFirst u sid room.participants } := by
    unfold joinRoom
    rw [if_pos h]
  refine ⟨hj, ?_, fun i => ?_⟩
  · rw [hj]
    exact updateSocketFirst_strip u sid room.participants
  · rw [hj]
    exact updateSocketFirst_get? u sid room.participants h i

/-- Room fixture: a mid-game room where `ben` carries score 40. -/
def roomRejoin : Room :=
  { participants := [⟨"u1", "ann", .num 12, some "old1"⟩, ⟨"u2", "ben", .num 40, some "old2"⟩],
    currentWord := "cat", currentTurnIndex := 1, currentTurnUserId := some "u1",
    currentRound := 1, maxRounds := 3, roundDuration := 30, roundStartTime := 0,
    words := ["w"], isStarted := true, isActive := true }

/-- C9 witness: `c9_rejoin_updates_only_socket` on `roomRejoin` for the
rejoin of `u2` with a new socket. -/
theorem c9_rejoin_updates_only_socket_witness :
    (joinRoom "u2" "ben" "newS" roomRejoin).participants.map stripSocket
      = roomRejoin.participants.map stripSocket ∧
    (((joinRoom "u2" "ben" "newS" roomRejoin).participants).get? 0).map (fun p => p.socketId)
      = (if 0 = firstMatchIdx "u2" roomRejoin.participants then some (some "newS")
          else (roomRejoin.participants.get? 0).map (fun p => p.socketId)) ∧
    (((joinRoom "u2" "ben" "newS" roomRejoin).participants).get? 1).map (fun p => p.socketId)
      = (if 1 = firstMatchIdx "u2" roomRejoin.participants then some (some "newS")
          else (roomRejoin.participants.get? 1).map (fun p => p.socketId)) :=
  ⟨(c9_rejoin_updates_only_socket roomRejoin "u2" "ben" "newS" (by decide)).2.1,
   (c9_rejoin_updates_only_socket roomRejoin "u2" "ben" "newS" (by decide)).2.2 0,
   (c9_rejoin_updates_only_socket roomRejoin "u2" "ben" "newS" (by decide)).2.2 1⟩

/-! Claim C10: the startGame handler's unbound identifiers. -/

/-- C10: the identifiers `difficultyLevel` and `wordCategory` of the
`generateWords` call are not bound in any enclosing scope of the
`startGame` handler, so for every existing room with at least two
participants the handler throws and answers `errorMessage "Failed to start
game"`, and no room document is saved by the handler (in particular none
with `isStarted = true`). -/
theorem c10_startGame_always_fails :
    startGameScopeIdents.contains "difficultyLevel" = false ∧
    startGameScopeIdents.contains "wordCategory" = false ∧
    ∀ r : Room, 2 ≤ r.participants.length →
      startGameHandler (some r)
        = ⟨.errorEmit "Failed to start game", none⟩ := by
  refine ⟨by decide, by decide, fun r h2 => ?_⟩
  show (if r.participants.length < 2 then
      StartGameResult.mk (.errorEmit "At least need 2 Players to start") none
    else if generateWordsCallArgs.all (fun v => startGameScopeIdents.contains v) then
      StartGameResult.mk .silent (some (startGameReset r))
    else StartGameResult.mk (.errorEmit "Failed to start game") none)
    = ⟨.errorEmit "Failed to start game", none⟩
  rw [if_neg (by omega), if_neg (by decide)]

/-- C10 witness: `c10_startGame_always_fails` on the two-player
`roomCarryOver`. -/
theorem c10_startGame_always_fails_witness :
    2 ≤ roomCarryOver.participants.length ∧
    startGameHandler (some roomCarryOver)
      = ⟨.errorEmit "Failed to start game", none⟩ :=
  ⟨by decide, (c10_startGame_always_fails).2.2 roomCarryOver (by decide)⟩

/-! Claim C1: at most one live round timer per room. -/

theorem mem_of_lookupTimer {r : String} {i : Nat} {l : List (String × Nat)}
    (h : lookupTimer r l = some i) : (r, i) ∈ l := by
  induction l with
  | nil => simp [lookupTimer] at h
  | cons p l ih =>
    by_cases hp : p.1 = r
    · simp only [lookupTimer, if_pos hp, Option.some_inj] at h
      have : p = (r, i) := by
        obtain ⟨p1, p2⟩ := p
        simp only at hp h
        rw [hp, h]
      rw [← this]
      exact List.mem_cons_self _ _
    · simp only [lookupTimer, if_neg hp] at h
      exact List.mem_cons_of_mem p (ih h)

/-- Consistency of the timer bookkeeping: every live interval is the one
recorded in the map for its room, handle ids are below the freshness
counter, and each room has at most one live interval. -/
def TimerInv (s : TimerState) : Prop :=
  (∀ p ∈ s.live, lookupTimer p.1 s.timers = some p.2) ∧
  (∀ p ∈ s.live, p.2 < s.next) ∧
  (∀ p ∈ s.timers, p.2 < s.next) ∧
  (∀ r, liveCountIn r s.live ≤ 1)

theorem mem_removeLive {r : String} {i : Nat} {l : List (String × Nat)} {q : String × Nat}
    (h : q ∈ removeLive r i l) : q ∈ l ∧ ¬ (q.1 = r ∧ q.2 = i) := by
  induction l with
  | nil => simp [removeLive] at h
  | cons p l ih =>
    by_cases hp : p.1 = r ∧ p.2 = i
    · rw [removeLive, if_pos hp] at h
      obtain ⟨h1, h2⟩ := ih h
      exact ⟨List.mem_cons_of_mem p h1, h2⟩
    · rw [removeLive, if_neg hp] at h
      rcases List.mem_cons.mp h with he | hm
      · subst he
        exact ⟨List.mem_cons_self _ _, hp⟩
      · obtain ⟨h1, h2⟩ := ih hm
        exact ⟨List.mem_cons_of_mem p h1, h2⟩

theorem mem_removeKey {r : String} {l : List (String × Nat)} {q : String × Nat}
    (h : q ∈ removeKey r l) : q ∈ l ∧ q.1 ≠ r := by
  induction l with
  | nil => simp [removeKey] at h
  | cons p l ih =>
    by_cases hp : p.1 = r
    · rw [removeKey, if_pos hp] at h
      obtain ⟨h1, h2⟩ := ih h
      exact ⟨List.mem_cons_of_mem p h1, h2⟩
    · rw [removeKey, if_neg hp] at h
      rcases List.mem_cons.mp h with he | hm
      · subst he
        exact ⟨List.mem_cons_self _ _, hp⟩
      · obtain ⟨h1, h2⟩ := ih hm
        exact ⟨List.mem_cons_of_mem p h1, h2⟩

theorem lookupTimer_removeKey_ne {r v : String} (hne : v ≠ r) (l : List (String × Nat)) :
    lookupTimer v (removeKey r l) = lookupTimer v l := by
  induction l with
  | nil => rfl
  | cons p l ih =>
    by_cases hp : p.1 = r
    · rw [removeKey, if_pos hp, lookupTimer, if_neg (by rw [hp]; exact fun he => hne he.symm)]
      exact ih
    · rw [removeKey, if_neg hp]
      by_cases hv : p.1 = v
      · rw [lookupTimer, if_pos hv, lookupTimer, if_pos hv]
      · rw [lookupTimer, if_neg hv, lookupTimer, if_neg hv]
        exact ih

theorem liveCountIn_removeLive_le (v r : String) (i : Nat) (l : List (String × Nat)) :
    liveCountIn v (removeLive r i l) ≤ liveCountIn v l := by
  induction l with
  | nil => exact Nat.le_refl 0
  | cons p l ih =>
    by_cases hp : p.1 = r ∧ p.2 = i
    · rw [removeLive, if_pos hp, liveCountIn]
      omega
    · rw [removeLive, if_neg hp, liveCountIn, liveCountIn]
      omega

theorem liveCountIn_zero_of_all_eq {r : String} {i : Nat} {l : List (String × Nat)}
    (h : ∀ p ∈ l, p.1 = r → p.2 = i) :
    liveCountIn r (removeLive r i l) = 0 := by
  induction l with
  | nil => rfl
  | cons p l ih =>
    have hl : ∀ q ∈ l, q.1 = r → q.2 = i :=
      fun q hq => h q (List.mem_cons_of_mem p hq)
    by_cases hp : p.1 = r ∧ p.2 = i
    · rw [removeLive, if_pos hp]
      exact ih hl
    · have hpr : p.1 ≠ r := by
        intro he
        exact hp ⟨he, h p (List.mem_cons_self _ _) he⟩
      rw [removeLive, if_neg hp, liveCountIn, if_neg hpr, ih hl]

theorem liveCountIn_zero_of_none {r : String} {l : List (String × Nat)}
    (h : ∀ p ∈ l, p.1 ≠ r) : liveCountIn r l = 0 := by
  induction l with
  | nil => rfl
  | cons p l ih =>
    rw [liveCountIn, if_neg (h p (List.mem_cons_self _ _)), Nat.zero_add]
    exact ih fun q hq => h q (List.mem_cons_of_mem p hq)

theorem not_mem_of_liveCountIn_zero {r : String} {l : List (String × Nat)}
    (h : liveCountIn r l = 0) {q : String × Nat} (hq : q ∈ l) : q.1 ≠ r := by
  induction l with
  | nil => simp at hq
  | cons p l ih =>
    rw [liveCountIn] at h
    by_cases hp : p.1 = r
    · rw [if_pos hp] at h
      omega
    · rw [if_neg hp, Nat.zero_add] at h
      rcases List.mem_cons.mp hq with he | hm
      · subst he
        exact hp
      · exact ih h hm

theorem clearRoomTimer_next (r : String) (s : TimerState) :
    (clearRoomTimer r s).next = s.next := by
  unfold clearRoomTimer
  cases lookupTimer r s.timers <;> rfl

theorem liveCountIn_clearRoomTimer (r : String) (s : TimerState) (hinv : TimerInv s) :
    liveCountIn r (clearRoomTimer r s).live = 0 := by
  obtain ⟨h1, _, _, _⟩ := hinv
  unfold clearRoomTimer
  cases hl : lookupTimer r s.timers with
  | none =>
    apply liveCountIn_zero_of_none
    intro p hp he
    have := h1 p hp
    rw [he, hl] at this
    exact Option.noConfusion this
  | some i =>
    apply liveCountIn_zero_of_all_eq
    intro p hp he
    have := h1 p hp
    rw [he, hl] at this
    exact (Option.some_inj.mp this).symm

theorem TimerInv_clearRoomTimer (r : String) (s : TimerState) (hinv : TimerInv s) :
    TimerInv (clearRoomTimer r s) := by
  obtain ⟨h1, h2, h3, h4⟩ := hinv
  unfold clearRoomTimer
  cases hl : lookupTimer r s.timers with
  | none => exact ⟨h1, h2, h3, h4⟩
  | some i =>
    refine ⟨?_, ?_, ?_, ?_⟩
    · intro p hp
      obtain ⟨hmem, hni⟩ := mem_removeLive hp
      by_cases hpr : p.1 = r
      · have := h1 p hmem
        rw [hpr, hl] at this
        exact absurd ⟨hpr, (Option.some_inj.mp this).symm⟩ hni
      · rw [lookupTimer_removeKey_ne hpr]
        exact h1 p hmem
    · intro p hp
      exact h2 p (mem_removeLive hp).1
    · intro p hp
      exact h3 p (mem_removeKey hp).1
    · intro v
      exact Nat.le_trans (liveCountIn_removeLive_le v r i s.live) (h4 v)

theorem TimerInv_startRoundTimer (r : String) (s : TimerState) (hinv : TimerInv s) :
    TimerInv (startRoundTimer r s) := by
  have hc := TimerInv_clearRoomTimer r s hinv
  have hz := liveCountIn_clearRoomTimer r s hinv
  obtain ⟨h1, h2, h3, h4⟩ := hc
  unfold startRoundTimer
  refine ⟨?_, ?_, ?_, ?_⟩
  · intro p hp
    rcases List.mem_cons.mp hp with he | hm
    · subst he
      rw [lookupTimer, if_pos rfl]
    · have hpr : p.1 ≠ r := not_mem_of_liveCountIn_zero hz hm
      rw [lookupTimer, if_neg (fun he => hpr he.symm)]
      exact h1 p hm
  · intro p hp
    rcases List.mem_cons.mp hp with he | hm
    · subst he
      exact Nat.lt_succ_self _
    · exact Nat.lt_succ_of_lt (h2 p hm)
  · intro p hp
    rcases List.mem_cons.mp hp with he | hm
    · subst he
      exact Nat.lt_succ_self _
    · exact Nat.lt_succ_of_lt (h3 p hm)
  · intro v
    by_cases hv : v = r
    · subst hv
      rw [liveCountIn, if_pos rfl, hz]
    · rw [liveCountIn, if_neg (fun he => hv he.symm)]
      simpa using h4 v

theorem TimerInv_applyTimerOp (s : TimerState) (op : TimerOp) (hinv : TimerInv s) :
    TimerInv (applyTimerOp s op) := by
  cases op with
  | clear r => exact TimerInv_clearRoomTimer r s hinv
  | start r => exact TimerInv_startRoundTimer r s hinv

theorem TimerInv_foldl (ops : List TimerOp) (s : TimerState) (hinv : TimerInv s) :
    TimerInv (ops.foldl applyTimerOp s) := by
  induction ops generalizing s with
  | nil => exact hinv
  | cons op ops ih => exact ih _ (TimerInv_applyTimerOp s op hinv)

theorem TimerInv_runTimerOps (ops : List TimerOp) : TimerInv (runTimerOps ops) := by
  apply TimerInv_foldl
  refine ⟨?_, ?_, ?_, ?_⟩ <;> intro p <;> simp [liveCountIn]

/-- C1: under every sequence of timer operations of the handlers (clears
and round starts) from a fresh connection state, each room has at most one
live interval handle at every instant; and starting a round first cancels
the room's recorded timer: the previously mapped handle is never live
after `startRound` runs. -/
theorem c1_at_most_one_live_timer :
    (∀ (ops : List TimerOp) (r : String),
      liveCountIn r (runTimerOps ops).live ≤ 1) ∧
    (∀ (ops : List TimerOp) (r : String) (i : Nat),
      lookupTimer r (runTimerOps ops).timers = some i →
        (r, i) ∉ (startRoundTimer r (runTimerOps ops)).live) := by
  constructor
  · intro ops r
    exact (TimerInv_runTimerOps ops).2.2.2 r
  · intro ops r i hl hmem
    have hinv := TimerInv_runTimerOps ops
    have hz := liveCountIn_clearRoomTimer r _ hinv
    unfold startRoundTimer at hmem
    rcases List.mem_cons.mp hmem with he | hm
    · have hi : i < (runTimerOps ops).next :=
        hinv.2.2.1 (r, i) (mem_of_lookupTimer hl)
      have hnext : (clearRoomTimer r (runTimerOps ops)).next = (runTimerOps ops).next :=
        clearRoomTimer_next r _
      have : i = (clearRoomTimer r (runTimerOps ops)).next := congrArg Prod.snd he
      omega
    · exact not_mem_of_liveCountIn_zero hz hm rfl

/-- C1 witness: after the single operation `start "a"`, the map holds
handle `0` for room `"a"`, and `c1_at_most_one_live_timer` yields that
this handle is not live after a further `startRound "a"` (it is cancelled
first), and that room `"a"` has at most one live handle. -/
theorem c1_at_most_one_live_timer_witness :
    liveCountIn "a" (runTimerOps [TimerOp.start "a"]).live ≤ 1 ∧
    ("a", 0) ∉ (startRoundTimer "a" (runTimerOps [TimerOp.start "a"])).live :=
  ⟨c1_at_most_one_live_timer.1 [TimerOp.start "a"] "a",
   c1_at_most_one_live_timer.2 [TimerOp.start "a"] "a" 0 (by decide)⟩

end Doodle
